import Mathlib

/-
Verification of fd_py (src/fd_py/main.py), a filtered, depth-bounded
directory-tree lister.  Strings are modelled as lists of characters, the
filesystem as a finite tree of entries, and the recursive `ls` function is
embedded directly from the source.  Filters are modelled both as pure boolean
predicates (for traversal properties, valid under the ambient assumption that
no filter call raises) and as fallible predicates returning `Except` (for the
error-handling properties).  The facet predicates of `pathlib` (the standard
library used by the source) are embedded from the CPython 3.11 implementation
of `pathlib.Path.is_dir` and friends, which share one try/except pattern
around `stat`.
-/

/-- Python strings, modelled as lists of characters. -/
abbrev Str := List Char

/-- Convenience conversion from Lean string literals to `Str`. -/
def str (s : String) : Str := s.data

/-- Embedding of `str.split("/")`-style single-character splitting, used to
model how `pathlib.PurePath` parses a path string into components. -/
def splitOnChar : Str → Char → List Str
  | [], _ => [[]]
  | a :: as, c =>
    match splitOnChar as c with
    | [] => [[]]
    | s :: ss => if a = c then [] :: s :: ss else (a :: s) :: ss

/-- Component kept by `pathlib` path parsing: empty components and single-dot
components are dropped (`PurePosixPath("a/./b").parts == ("a", "b")`). -/
def segKeep (s : Str) : Bool := !(s.isEmpty) && !(s == ['.'])

/-- Embedding of `pathlib.PurePath.name`: the last parsed component, or the
empty string when there is none (so `Path(".").name == ""` and
`Path("/").name == ""`). -/
def pyName (p : Str) : Str :=
  (((splitOnChar p '/').filter segKeep).getLast?).getD []

/-- Embedding of `str(parent / name)` for a parent already in normalized
`str(Path(...))` form: joining onto `.` drops the dot, joining onto the root
`/` does not duplicate the slash, otherwise a single slash is inserted. -/
def childPath (p n : Str) : Str :=
  if p = str "." then n
  else if p = str "/" then '/' :: n
  else p ++ '/' :: n

/-- The diagnostic line printed to standard error by `ls` on a
`PermissionError`: `f"access denied for file: {path}"` (main.py line 84). -/
def deniedMsg (p : Str) : Str := str "access denied for file: " ++ p

/-- On-disk boolean facets of one filesystem entry, as observed through the
`pathlib` type predicates (`is_socket`, `is_file`, `is_dir`, `is_fifo`,
`is_symlink`).  `is_file` and `is_dir` follow symlinks, `is_symlink` does not,
so a symlink to a directory has both `is_dir` and `is_symlink` true. -/
structure Facets where
  is_socket : Bool
  is_file : Bool
  is_dir : Bool
  is_fifo : Bool
  is_symlink : Bool
  deriving DecidableEq, Repr

/-- One node of the (finite) filesystem presented to the traversal: an entry
name, its facets, whether iterating it raises `PermissionError`
(`denied = true`), and the list of child entries in directory-iteration
order.  `entries` is consulted only when the traversal iterates the node. -/
inductive FSEntry : Type where
  | mk (name : Str) (fac : Facets) (denied : Bool) (entries : List FSEntry)
  deriving Repr

def FSEntry.name : FSEntry → Str
  | .mk n _ _ _ => n

def FSEntry.fac : FSEntry → Facets
  | .mk _ f _ _ => f

def FSEntry.denied : FSEntry → Bool
  | .mk _ _ d _ => d

def FSEntry.entries : FSEntry → List FSEntry
  | .mk _ _ _ cs => cs

/-- What a filter call can observe of a `pathlib.Path` argument: its final
component (`path.name`), its on-disk facets, and its absolute path string
(`str(path.absolute())`), used by the regex filter. -/
structure EntryView where
  name : Str
  fac : Facets
  abspath : Str

/-- Rich text style used by the source: `"blue"` for the current node and for
directory leaves, `""` (here `plain`) for file leaves. -/
inductive Style : Type where
  | blue
  | plain
  deriving DecidableEq, Repr

/-- Model of `rich.tree.Tree` as far as the source observes it: a label, its
style, and the ordered children added by `tree.add` (a `Text` added as a
child is a leaf node carrying that label). -/
inductive RTree : Type where
  | mk (label : Str) (style : Style) (children : List RTree)
  deriving Repr

def RTree.label : RTree → Str
  | .mk l _ _ => l

def RTree.style : RTree → Style
  | .mk _ s _ => s

def RTree.children : RTree → List RTree
  | .mk _ _ cs => cs

/-- Embedding of `HiddenFilter.filter` (main.py lines 21-23):
`path.name.startswith(".")`. -/
def hiddenFilter (v : EntryView) : Bool :=
  match v.name with
  | [] => false
  | c :: _ => c = '.'

/-- Embedding of python `str.rfind`: the index of the last occurrence of a
character, if any. -/
def rfindIdx : Str → Char → Option Nat
  | [], _ => none
  | a :: as, c =>
    match rfindIdx as c with
    | some i => some (i + 1)
    | none => if a = c then some 0 else none

/-- Embedding of `pathlib.PurePath.suffix` applied to a final component: the
substring from the last dot onwards, provided that dot is neither the first
nor the last character of the name; otherwise the empty string.  (CPython
3.11: `i = name.rfind("."); return name[i:] if 0 < i < len(name) - 1 else
""`.)  Hence `Path(".txt").suffix == ""` and `Path("x.").suffix == ""`. -/
def pySuffix (name : Str) : Str :=
  match rfindIdx name '.' with
  | some i => if 0 < i ∧ i + 1 < name.length then name.drop i else []
  | none => []

/-- Embedding of `str.lstrip(".")`: drop every leading dot. -/
def lstripDot (s : Str) : Str := s.dropWhile (fun c => c == '.')

/-- Embedding of `FileExtensionFilter.filter` (main.py lines 30-34):
`path.is_dir() or path.suffix.lstrip(".") == self.file_extension`. -/
def fileExtensionFilter (ext : Str) (v : EntryView) : Bool :=
  v.fac.is_dir || (lstripDot (pySuffix v.name) == ext)

/-- Embedding of `FiletypeFilter.filetype_map` (main.py lines 47-53): the
class-level dispatch table from a type code to a `pathlib` type predicate. -/
def filetype_map : List (Str × (Facets → Bool)) :=
  [(str "s", Facets.is_socket),
   (str "f", Facets.is_file),
   (str "d", Facets.is_dir),
   (str "p", Facets.is_fifo),
   (str "l", Facets.is_symlink)]

/-- Embedding of `FiletypeFilter.filter` (main.py lines 57-58):
`self.filetype_map[self.filetype](path)`.  A code absent from the table
models the `KeyError` outcome as `none`. -/
def filetypeFilter (t : Str) (v : EntryView) : Option Bool :=
  (filetype_map.lookup t).map (fun pred => pred v.fac)

/-- Embedding of `InverseFilter.filter` (main.py lines 62-66) for pure
filters: logical negation of the wrapped predicate. -/
def inverseFilter (f : EntryView → Bool) (v : EntryView) : Bool := !(f v)

/-- Embedding of `all(pf.filter(file) for pf in filters)` (main.py line 78)
over pure filter predicates: logical AND across the filter list. -/
def allPass (filters : List (EntryView → Bool)) (v : EntryView) : Bool :=
  filters.all (fun f => f v)

/-- The `EntryView` a filter receives for a child entry yielded while
iterating the directory at path `p`. -/
def mkView (p : Str) (e : FSEntry) : EntryView :=
  { name := e.name, fac := e.fac, abspath := childPath p e.name }

/-- The leaf node added by the `else` branch of `ls` (main.py line 82):
`Text(file.name, style=("blue" if file.is_dir() else ""))`. -/
def leafNode (c : FSEntry) : RTree :=
  .mk c.name (if c.fac.is_dir then .blue else .plain) []

mutual

/-- Embedding of `ls` (main.py lines 69-85) over pure filter predicates
(valid whenever no filter call raises).  Arguments: the path string of the
node (in normalized `str(Path(...))` form, without a leading `~`, so that
`expanduser` is the identity), the filesystem entry at that path, the depth
budget `max_depth`, and the filter list.  Returns the built tree together
with the diagnostic lines printed to standard error, in print order.  A
denied directory yields its own node with no children plus one diagnostic
line (`PermissionError` is caught before any child is processed, since
`iterdir` lists the directory eagerly in CPython 3.11). -/
def ls (p : Str) (e : FSEntry) (max_depth : Int)
    (filters : List (EntryView → Bool)) : RTree × List Str :=
  match e with
  | .mk _ _ true _ => (.mk (pyName p) .blue [], [deniedMsg p])
  | .mk _ _ false cs =>
    let r := lsChildren p cs max_depth filters
    (.mk (pyName p) .blue r.1, r.2)

/-- The `for file in ... iterdir()` loop body of `ls` (main.py lines 77-82):
a child passing every filter is recursed into when it is a directory and
`max_depth > 0`, and otherwise added as a leaf; a child failing some filter
is skipped. -/
def lsChildren (p : Str) (cs : List FSEntry) (max_depth : Int)
    (filters : List (EntryView → Bool)) : List RTree × List Str :=
  match cs with
  | [] => ([], [])
  | c :: rest =>
    let r := lsChildren p rest max_depth filters
    if allPass filters (mkView p c) then
      if c.fac.is_dir && decide (max_depth > 0) then
        let sub := ls (childPath p c.name) c (max_depth - 1) filters
        (sub.1 :: r.1, sub.2 ++ r.2)
      else (leafNode c :: r.1, r.2)
    else r

end

/-! Spec-side definitions, used to state the claims and compare them with the
source embedding. -/

/-- The five on-disk kinds named by the spec for the `Kind` filter. -/
inductive FileKind : Type where
  | socket
  | file
  | dir
  | fifo
  | symlink
  deriving DecidableEq, Repr

/-- Modelled from the spec wording of claim C5: the entry type "determined by
applying the tests in the fixed priority order socket, regular-file,
directory, fifo, symlink and taking the first that matches". -/
def specClassifyKind (f : Facets) : Option FileKind :=
  if f.is_socket then some .socket
  else if f.is_file then some .file
  else if f.is_dir then some .dir
  else if f.is_fifo then some .fifo
  else if f.is_symlink then some .symlink
  else none

/-- The kind denoted by each type code, per the spec CLI mapping. -/
def specKindOfCode (t : Str) : Option FileKind :=
  if t = str "s" then some .socket
  else if t = str "f" then some .file
  else if t = str "d" then some .dir
  else if t = str "p" then some .fifo
  else if t = str "l" then some .symlink
  else none

/-- Modelled from the spec wording of claim C6: the extension as "the suffix
after the last `.` in the name", with no guard on the position of the dot. -/
def specExtClaim (name : Str) : Str :=
  match rfindIdx name '.' with
  | some i => name.drop (i + 1)
  | none => []

/-- The amended notion of extension: the part after the last dot, but only
when that dot is neither the first nor the last character of the name
(pathlib `suffix` semantics); otherwise empty. -/
def specExtAmended (name : Str) : Str :=
  match rfindIdx name '.' with
  | some i => if 0 < i ∧ i + 1 < name.length then name.drop (i + 1) else []
  | none => []

/-- Modelled from the spec wording of claim C9: a path string has as "final
path segment" its last nonempty slash-separated component (posix basename
semantics, under which the final segment of `"."` is `"."`). -/
def specFinalSegment (p : Str) : Str :=
  (((splitOnChar p '/').filter (fun s => !s.isEmpty)).getLast?).getD []

/-! Embedding of the CPython 3.11 `pathlib` type-predicate error handling,
shared by `is_socket`, `is_file`, `is_dir`, `is_fifo` and `is_symlink`:
the predicate stats the path and returns the corresponding `S_IS*` bit;
an `OSError` whose errno is in `_IGNORED_ERRNOS = (ENOENT, ENOTDIR, EBADF,
ELOOP)` yields `False`, and any other `OSError` is re-raised. -/

/-- The errnos relevant to the pathlib predicate error handling. -/
inductive Errno : Type where
  | enoent
  | enotdir
  | ebadf
  | eloop
  | eacces
  | eintr
  deriving DecidableEq, Repr

/-- Embedding of `pathlib._ignore_error` for posix errnos (pathlib.py line
37): true exactly on `_IGNORED_ERRNOS`. -/
def ignoreError (e : Errno) : Bool :=
  [Errno.enoent, Errno.enotdir, Errno.ebadf, Errno.eloop].contains e

/-- The `S_IS*` bits of a successful `stat` result. -/
structure StatMode where
  s_sock : Bool
  s_reg : Bool
  s_dir : Bool
  s_fifo : Bool
  s_lnk : Bool
  deriving DecidableEq, Repr

/-- Embedding of the shared body of the pathlib type predicates (CPython 3.11
pathlib.py, e.g. `is_dir` at line 1246): given the outcome of `stat` —
either a mode or an `OSError` errno — return the selected mode bit, return
`False` on an ignored errno, and re-raise any other errno. -/
def pathlibTypePredicate (sel : StatMode → Bool)
    (st : Except Errno StatMode) : Except Errno Bool :=
  match st with
  | .ok m => .ok (sel m)
  | .error e => if ignoreError e then .ok false else .error e

/-! Fallible model: filter calls that can raise, used for the error-handling
claims.  An `Except` error stands for an uncaught Python exception. -/

/-- Python exceptions a filter call can raise: `re.error` from an invalid
regular expression, `KeyError` from an unmapped type code. -/
inductive PyErr : Type where
  | reError
  | keyError
  deriving DecidableEq, Repr

/-- Model of a pattern string handed to `re.findall`: whether it compiles,
and, when it does, its search semantics on a subject string (`true` iff the
pattern finds at least one match). -/
structure PyRegex where
  valid : Bool
  find : Str → Bool

/-- A fallible filter: the `filter` method of a `PathFilter`, with `Except`
modelling a raised exception. -/
abbrev FilterE := EntryView → Except PyErr Bool

/-- Embedding of `RegexFilter.filter` (main.py lines 38-42):
`bool(re.findall(self.pattern, str(path.absolute())))`.  `re.findall`
compiles the pattern at call time, so an invalid pattern raises `re.error`
here — at evaluation, not at filter construction. -/
def regexFilterE (pat : PyRegex) : FilterE := fun v =>
  if pat.valid then .ok (pat.find v.abspath) else .error .reError

/-- `HiddenFilter.filter` as a fallible filter (it never raises). -/
def hiddenFilterE : FilterE := fun v => .ok (hiddenFilter v)

/-- `FileExtensionFilter.filter` as a fallible filter (it never raises in
this model; see the C8 analysis for the facet-lookup caveat). -/
def fileExtensionFilterE (ext : Str) : FilterE := fun v =>
  .ok (fileExtensionFilter ext v)

/-- `FiletypeFilter.filter` as a fallible filter: an unmapped type code
raises `KeyError` (main.py line 58). -/
def filetypeFilterE (t : Str) : FilterE := fun v =>
  match filetype_map.lookup t with
  | some pred => .ok (pred v.fac)
  | none => .error .keyError

/-- `InverseFilter.filter` as a fallible filter: negates the wrapped result
and propagates its exception. -/
def inverseFilterE (f : FilterE) : FilterE := fun v =>
  match f v with
  | .ok b => .ok (!b)
  | .error e => .error e

/-- `all(pf.filter(file) for pf in filters)` over fallible filters: filters
run left to right, stopping at the first `False`; an exception raised by a
filter propagates. -/
def allPassE : List FilterE → EntryView → Except PyErr Bool
  | [], _ => .ok true
  | f :: fs, v =>
    match f v with
    | .error e => .error e
    | .ok b => if b then allPassE fs v else .ok false

mutual

/-- `ls` over fallible filters.  An exception raised by a filter call is not
caught (the `except` clause of `ls` catches only `PermissionError`), so it
propagates out of the whole traversal; diagnostic lines already printed
before the exception are not tracked in the error case. -/
def lsE (p : Str) (e : FSEntry) (max_depth : Int) (filters : List FilterE) :
    Except PyErr (RTree × List Str) :=
  match e with
  | .mk _ _ true _ => .ok (.mk (pyName p) .blue [], [deniedMsg p])
  | .mk _ _ false cs =>
    match lsChildrenE p cs max_depth filters with
    | .error er => .error er
    | .ok r => .ok (.mk (pyName p) .blue r.1, r.2)

/-- The loop body of `ls` over fallible filters. -/
def lsChildrenE (p : Str) (cs : List FSEntry) (max_depth : Int)
    (filters : List FilterE) : Except PyErr (List RTree × List Str) :=
  match cs with
  | [] => .ok ([], [])
  | c :: rest =>
    match allPassE filters (mkView p c) with
    | .error er => .error er
    | .ok b =>
      if b then
        if c.fac.is_dir && decide (max_depth > 0) then
          match lsE (childPath p c.name) c (max_depth - 1) filters with
          | .error er => .error er
          | .ok sub =>
            match lsChildrenE p rest max_depth filters with
            | .error er => .error er
            | .ok r => .ok (sub.1 :: r.1, sub.2 ++ r.2)
        else
          match lsChildrenE p rest max_depth filters with
          | .error er => .error er
          | .ok r => .ok (leafNode c :: r.1, r.2)
      else lsChildrenE p rest max_depth filters

end

/-- The `choices=("s", "f", "d", "p")` of the `--type` argument (main.py
line 102): argparse rejects any other value before `main` builds filters or
calls `ls`. -/
def typeChoices : List Str := [str "s", str "f", str "d", str "p"]

/-- Process-level failures of `main`: an argparse rejection (`SystemExit`
before any traversal), or a Python exception that escaped `ls` uncaught. -/
inductive ProgErr : Type where
  | argparseExit
  | uncaught (e : PyErr)
  deriving DecidableEq, Repr

/-- Embedding of the filter-list construction in `main` (main.py lines
132-145), in source order: the implicit `InverseFilter(HiddenFilter())`
unless `-H` was given, then one `FiletypeFilter` per `--type` value, then
`RegexFilter(args.pattern)` when the pattern is truthy, then one
`InverseFilter(RegexFilter(...))` per `--exclude`, then one
`FileExtensionFilter` per `--ext`. -/
def buildFiltersE (hidden : Bool) (types : List Str) (pattern : Option PyRegex)
    (excludes : List PyRegex) (exts : List Str) : List FilterE :=
  (if hidden then [inverseFilterE hiddenFilterE] else []) ++
  types.map filetypeFilterE ++
  (match pattern with
   | some pat => [regexFilterE pat]
   | none => []) ++
  excludes.map (fun pat => inverseFilterE (regexFilterE pat)) ++
  exts.map fileExtensionFilterE

/-- Embedding of `main` (main.py lines 88-147) at the level the C7 claim
needs: argparse validates every `--type` value against its `choices` before
anything else runs; then `ls` traverses; the tree is printed only when the
traversal returns, so an uncaught exception yields no tree output. -/
def mainE (pathArg : Str) (root : FSEntry) (hidden : Bool) (types : List Str)
    (pattern : Option PyRegex) (excludes : List PyRegex) (exts : List Str)
    (max_depth : Int) : Except ProgErr (RTree × List Str) :=
  if types.all (fun t => typeChoices.contains t) then
    match lsE pathArg root max_depth
        (buildFiltersE hidden types pattern excludes exts) with
    | .ok out => .ok out
    | .error er => .error (.uncaught er)
  else .error .argparseExit

/-! Concrete fixtures used by witnesses and counterexamples. -/

/-- Facets of a plain regular file. -/
def fileFac : Facets := ⟨false, true, false, false, false⟩

/-- Facets of a plain directory. -/
def dirFac : Facets := ⟨false, false, true, false, false⟩

/-- Facets of a symlink to a directory: `is_dir` follows the link and is
true, and `is_symlink` is also true. -/
def symdirFac : Facets := ⟨false, false, true, false, true⟩

/-- A regular file named `a`. -/
def entA : FSEntry := .mk (str "a") fileFac false []

/-- A directory named `sub` containing the file `a`. -/
def subDir : FSEntry := .mk (str "sub") dirFac false [entA]

/-- A directory named `sub` whose iteration raises `PermissionError`. -/
def deniedSub : FSEntry := .mk (str "sub") dirFac true []

/-- The view of a symlink-to-directory entry named `link`. -/
def symdirView : EntryView := ⟨str "link", symdirFac, str "/r/link"⟩

/-- The view of a regular file named `.txt`. -/
def dotTxtView : EntryView := ⟨str ".txt", fileFac, str "/r/.txt"⟩

/-- A pattern that fails to compile. -/
def badPat : PyRegex := ⟨false, fun _ => false⟩

/-- An empty, accessible root directory at path `.`. -/
def emptyRootFS : FSEntry := .mk (str ".") dirFac false []

/-! Helper lemmas. -/

/-- With a non-positive depth budget the loop never recurses: every entry
passing the filters is added as a childless leaf, and no diagnostic is
produced. -/
theorem lsChildren_nonpos (p : Str) (cs : List FSEntry) (md : Int)
    (filters : List (EntryView → Bool)) (h : md ≤ 0) :
    lsChildren p cs md filters =
      ((cs.filter (fun c => allPass filters (mkView p c))).map leafNode, []) := by
  induction cs with
  | nil => simp [lsChildren]
  | cons c rest ih =>
    have hmd : ¬ (md > 0) := by omega
    cases hp : allPass filters (mkView p c) with
    | true => simp [lsChildren, List.filter_cons, hp, hmd, ih]
    | false => simp [lsChildren, List.filter_cons, hp, ih]

/-- If `rfindIdx` finds no occurrence, the character is not in the list. -/
theorem rfindIdx_none (l : Str) (c : Char) (h : rfindIdx l c = none) :
    c ∉ l := by
  induction l with
  | nil => simp
  | cons a as ih =>
    simp only [rfindIdx] at h
    cases hr : rfindIdx as c with
    | some i => simp [hr] at h
    | none =>
      rw [hr] at h
      by_cases hac : a = c
      · rw [if_pos hac] at h; exact Option.noConfusion h
      · simp only [List.mem_cons, not_or]
        exact ⟨fun he => hac he.symm, ih hr⟩

/-- The index returned by `rfindIdx` carries the sought character. -/
theorem rfindIdx_drop (l : Str) (c : Char) (i : Nat)
    (h : rfindIdx l c = some i) : l.drop i = c :: l.drop (i + 1) := by
  induction l generalizing i with
  | nil => exact Option.noConfusion h
  | cons a as ih =>
    simp only [rfindIdx] at h
    cases hr : rfindIdx as c with
    | some j =>
      rw [hr] at h
      cases h
      simpa using ih j hr
    | none =>
      rw [hr] at h
      by_cases hac : a = c
      · rw [if_pos hac] at h
        cases h
        subst hac
        simp
      · rw [if_neg hac] at h; exact Option.noConfusion h

/-- `rfindIdx` returns the last occurrence: nothing after it matches. -/
theorem rfindIdx_after (l : Str) (c : Char) (i : Nat)
    (h : rfindIdx l c = some i) : c ∉ l.drop (i + 1) := by
  induction l generalizing i with
  | nil => exact Option.noConfusion h
  | cons a as ih =>
    simp only [rfindIdx] at h
    cases hr : rfindIdx as c with
    | some j =>
      rw [hr] at h
      cases h
      simpa using ih j hr
    | none =>
      rw [hr] at h
      by_cases hac : a = c
      · rw [if_pos hac] at h
        cases h
        simpa using rfindIdx_none as c hr
      · rw [if_neg hac] at h; exact Option.noConfusion h

/-- `dropWhile` on equality with an absent character is the identity. -/
theorem dropWhile_eq_of_not_mem (l : Str) (c : Char) (h : c ∉ l) :
    l.dropWhile (fun x => x == c) = l := by
  cases l with
  | nil => rfl
  | cons a as =>
    have ha : (a == c) = false := by
      simp only [List.mem_cons, not_or] at h
      simp only [beq_eq_false_iff_ne, ne_eq]
      exact fun he => h.1 he.symm
    simp [List.dropWhile_cons, ha]

/-- The computation performed by the source — pathlib `suffix` followed by
`lstrip(".")` — equals the amended notion of extension. -/
theorem lstripDot_pySuffix (name : Str) :
    lstripDot (pySuffix name) = specExtAmended name := by
  cases hr : rfindIdx name '.' with
  | none => simp [pySuffix, specExtAmended, lstripDot, hr]
  | some i =>
    by_cases hg : 0 < i ∧ i + 1 < name.length
    · simp only [pySuffix, specExtAmended, hr, if_pos hg]
      rw [rfindIdx_drop name '.' i hr]
      unfold lstripDot
      rw [List.dropWhile_cons]
      simp only [beq_self_eq_true, if_true]
      exact dropWhile_eq_of_not_mem _ _ (rfindIdx_after name '.' i hr)
    · simp only [pySuffix, specExtAmended, hr, if_neg hg]
      rfl

/-! Claim theorems. -/

/-- C1: for every entry yielded during directory iteration, if the FilterSet
(logical AND over all filters) rejects the entry, the builder skips it
entirely — the iteration result (both the child nodes and the diagnostic
lines) is exactly that of the listing without the entry, so it contributes
no TreeNode and, directory or not, its subtree is never visited. -/
theorem c1_filter_then_recurse (p : Str) (pre : List FSEntry) (c : FSEntry)
    (rest : List FSEntry) (md : Int) (filters : List (EntryView → Bool))
    (h : allPass filters (mkView p c) = false) :
    lsChildren p (pre ++ c :: rest) md filters =
      lsChildren p (pre ++ rest) md filters := by
  induction pre with
  | nil => simp [lsChildren, h]
  | cons a pre ih => simp only [List.cons_append, lsChildren, List.append_eq, ih]

theorem c1_filter_then_recurse_witness :
    allPass [fun _ => false] (mkView (str "r") subDir) = false ∧
    lsChildren (str "r") [subDir] 7 [fun _ => false] =
      lsChildren (str "r") [] 7 [fun _ => false] :=
  ⟨rfl, c1_filter_then_recurse (str "r") [] subDir [] 7 [fun _ => false] rfl⟩

/-- C2 counterexample: a directory entry (`sub`) that passes the empty
FilterSet while the depth budget is 0 is NOT dropped — the builder emits a
childless leaf node for it, so the claim is false at this input. -/
theorem c2_counterexample :
    allPass [] (mkView (str "r") subDir) = true ∧
    subDir.fac.is_dir = true ∧
    (lsChildren (str "r") [subDir] 0 []).1 = [RTree.mk (str "sub") .blue []] ∧
    ([RTree.mk (str "sub") Style.blue []] : List RTree) ≠ [] :=
  ⟨rfl, rfl, rfl, by simp⟩

/-- C2 amended: a directory entry that passes the full FilterSet while the
remaining depth budget equals 0 is attached to the parent as a childless
leaf node styled as a directory (the non-recursive branch of the loop); it
is not dropped. -/
theorem c2_amended (p : Str) (c : FSEntry) (rest : List FSEntry)
    (filters : List (EntryView → Bool))
    (h1 : allPass filters (mkView p c) = true) (h2 : c.fac.is_dir = true) :
    lsChildren p (c :: rest) 0 filters =
      (RTree.mk c.name .blue [] :: (lsChildren p rest 0 filters).1,
       (lsChildren p rest 0 filters).2) := by
  simp [lsChildren, h1, h2, leafNode]

theorem c2_amended_witness :
    allPass [] (mkView (str "r") subDir) = true ∧
    subDir.fac.is_dir = true ∧
    lsChildren (str "r") [subDir] 0 [] =
      (RTree.mk subDir.name .blue [] :: (lsChildren (str "r") [] 0 []).1,
       (lsChildren (str "r") [] 0 []).2) :=
  ⟨rfl, rfl, c2_amended (str "r") subDir [] [] rfl rfl⟩

/-- C3 counterexample: with `max_depth = 0`, an empty FilterSet and a root
directory containing the regular file `a`, the root node has one child (the
leaf for `a`), not zero children. -/
theorem c3_counterexample :
    (ls (str "r") (FSEntry.mk (str "r") dirFac false [entA]) 0 []).1.children =
      [RTree.mk (str "a") .plain []] ∧
    ([RTree.mk (str "a") Style.plain []] : List RTree) ≠ [] :=
  ⟨rfl, by simp⟩

/-- C3 amended: calling build with `max_depth = 0` yields a root node whose
children are exactly the filter-admitted entries of the root directory, each
attached as a childless leaf (directories included); the children list is
empty only when no entry passes the filters. -/
theorem c3_amended (p : Str) (n : Str) (fac : Facets) (cs : List FSEntry)
    (filters : List (EntryView → Bool)) :
    ls p (.mk n fac false cs) 0 filters =
      (RTree.mk (pyName p) .blue
        ((cs.filter (fun c => allPass filters (mkView p c))).map leafNode),
       []) := by
  simp [ls, lsChildren_nonpos p cs 0 filters (by omega)]

/-- C4: when directory iteration is denied for a path whose node was already
admitted, the builder returns that node with zero children together with
exactly one diagnostic line naming the path, and — as shown by the second
conjunct — a denied directory encountered during a listing contributes its
childless node and its diagnostic while the remaining sibling entries are
still processed normally; the traversal result is always defined (the
condition is never fatal). -/
theorem c4_access_denied :
    (∀ p n fac cs md filters,
        ls p (.mk n fac true cs) md filters =
          (RTree.mk (pyName p) .blue [], [deniedMsg p])) ∧
    (∀ p c rest md filters,
        allPass filters (mkView p c) = true → c.denied = true →
        c.fac.is_dir = true → (0 : Int) < md →
        lsChildren p (c :: rest) md filters =
          (RTree.mk (pyName (childPath p c.name)) .blue []
             :: (lsChildren p rest md filters).1,
           deniedMsg (childPath p c.name)
             :: (lsChildren p rest md filters).2)) := by
  constructor
  · intro p n fac cs md filters; rfl
  · intro p c rest md filters h1 h2 h3 hmd
    rcases c with ⟨n, f, d, cs⟩
    simp only [FSEntry.denied] at h2
    subst h2
    simp only [FSEntry.fac] at h3
    simp [lsChildren, h1, h3, hmd, ls, FSEntry.name, FSEntry.fac]

theorem c4_access_denied_witness :
    allPass [] (mkView (str "r") deniedSub) = true ∧
    deniedSub.denied = true ∧
    deniedSub.fac.is_dir = true ∧
    (0 : Int) < 10 ∧
    lsChildren (str "r") [deniedSub] 10 [] =
      (RTree.mk (pyName (childPath (str "r") deniedSub.name)) .blue []
         :: (lsChildren (str "r") [] 10 []).1,
       deniedMsg (childPath (str "r") deniedSub.name)
         :: (lsChildren (str "r") [] 10 []).2) :=
  ⟨rfl, rfl, rfl, by decide,
   c4_access_denied.2 (str "r") deniedSub [] 10 [] rfl rfl rfl (by decide)⟩

/-- C5 counterexample: for a symlink to a directory (`is_dir` and
`is_symlink` both true on disk) and the Kind filter for code `l`
(set = {symlink}), the filter evaluates to true, yet the type determined by
the claimed priority order socket, regular-file, directory, fifo, symlink is
`directory`, which is not a member of {symlink} — so the claimed equivalence
fails at this input. -/
theorem c5_counterexample :
    ¬ (filetypeFilter (str "l") symdirView = some true ↔
        specClassifyKind symdirView.fac = specKindOfCode (str "l")) := by
  decide

/-- C5 amended: `Kind(code).evaluate(e)` applies the single predicate mapped
to the code directly — `is_socket` for `s`, `is_file` for `f`, `is_dir` for
`d`, `is_fifo` for `p`, `is_symlink` for `l` — with no priority
classification, and an unmapped code raises `KeyError`; the predicates are
not mutually exclusive: a symlink to a directory passes both the `d` and the
`l` filters. -/
theorem c5_amended :
    (∀ v : EntryView,
      filetypeFilter (str "s") v = some v.fac.is_socket ∧
      filetypeFilter (str "f") v = some v.fac.is_file ∧
      filetypeFilter (str "d") v = some v.fac.is_dir ∧
      filetypeFilter (str "p") v = some v.fac.is_fifo ∧
      filetypeFilter (str "l") v = some v.fac.is_symlink ∧
      filetypeFilter (str "x") v = none) ∧
    filetypeFilter (str "d") symdirView = some true ∧
    filetypeFilter (str "l") symdirView = some true :=
  ⟨fun _ => ⟨rfl, rfl, rfl, rfl, rfl, rfl⟩, rfl, rfl⟩

/-- C6 counterexample: the regular file named `.txt` does NOT pass
`Extension(txt)` — pathlib treats a leading dot as hidden-name marker, not as
extension separator, so `Path(".txt").suffix == ""` — although the suffix
after the last dot of the name is exactly `txt` as the claim reads it. -/
theorem c6_counterexample :
    fileExtensionFilter (str "txt") dotTxtView = false ∧
    dotTxtView.fac.is_dir = false ∧
    specExtClaim dotTxtView.name = str "txt" := by
  decide

/-- C6 amended: `Extension(ext).evaluate(e)` is true iff e is a directory OR
the extension of the name equals ext, where the extension is the part after
the last dot only when that dot is neither the first nor the last character
of the name, and empty otherwise; in particular every directory passes, and
a file named exactly `.` followed by ext has an empty extension and fails. -/
theorem c6_amended (ext : Str) (v : EntryView) :
    fileExtensionFilter ext v =
      (v.fac.is_dir || (specExtAmended v.name == ext)) := by
  unfold fileExtensionFilter
  rw [lstripDot_pySuffix]

/-- C7 counterexample: with an invalid regular expression as the pattern
filter and an empty root directory, the program neither fails before
traversal nor at all — the traversal completes and a tree is printed, so the
invalid configuration is not surfaced as a fatal pre-traversal error. -/
theorem c7_counterexample :
    badPat.valid = false ∧
    mainE (str ".") emptyRootFS true [] (some badPat) [] [] 10 =
      .ok (RTree.mk [] .blue [], []) :=
  ⟨rfl, rfl⟩

/-- C7 amended: a Kind filter with an unsupported type code is rejected by
argument parsing before traversal begins (fatal, no output); an invalid
Pattern regular expression, by contrast, is not validated up front — it
raises at the first filter evaluation during traversal, which is fatal and
yields no tree output because rendering happens only after the traversal
returns, and when no entry is ever filter-evaluated (an empty root
directory) the invalid pattern goes undetected and a tree is printed. -/
theorem c7_amended :
    (∀ pathArg root hidden types pattern excludes exts md t,
        t ∈ types → typeChoices.contains t = false →
        mainE pathArg root hidden types pattern excludes exts md =
          .error .argparseExit) ∧
    (∀ p n fac c rest md pat, pat.valid = false →
        mainE p (.mk n fac false (c :: rest)) false [] (some pat) [] [] md =
          .error (.uncaught .reError)) ∧
    (∀ p n fac md pat, pat.valid = false →
        mainE p (.mk n fac false []) false [] (some pat) [] [] md =
          .ok (RTree.mk (pyName p) .blue [], [])) := by
  refine ⟨?_, ?_, ?_⟩
  · intro pathArg root hidden types pattern excludes exts md t ht hf
    have hall : types.all (fun t => typeChoices.contains t) = false := by
      cases hq : types.all (fun t => typeChoices.contains t) with
      | false => rfl
      | true =>
        have := List.all_eq_true.mp hq t ht
        rw [hf] at this
        exact Bool.noConfusion this
    unfold mainE
    rw [hall]
    simp
  · intro p n fac c rest md pat hv
    simp [mainE, lsE, lsChildrenE, buildFiltersE, allPassE, regexFilterE, hv,
      typeChoices]
  · intro p n fac md pat hv
    simp [mainE, lsE, lsChildrenE, buildFiltersE, typeChoices]

theorem c7_amended_witness :
    ((str "x") ∈ [str "x"] ∧ typeChoices.contains (str "x") = false ∧
      mainE (str ".") emptyRootFS true [str "x"] none [] [] 10 =
        .error .argparseExit) ∧
    (badPat.valid = false ∧
      mainE (str "r") (.mk (str "r") dirFac false [entA]) false []
          (some badPat) [] [] 5 =
        .error (.uncaught .reError)) :=
  ⟨⟨by simp, rfl,
    c7_amended.1 (str ".") emptyRootFS true [str "x"] none [] [] 10 (str "x")
      (by simp) rfl⟩,
   rfl,
   c7_amended.2.1 (str "r") (str "r") dirFac entA [] 5 badPat rfl⟩

/-- C8 counterexample: a permission-denied stat (`EACCES`) makes the pathlib
type predicate re-raise the error instead of returning false, contradicting
the claim that every facet lookup returns false on any underlying OS
error. -/
theorem c8_counterexample :
    pathlibTypePredicate StatMode.s_dir (.error .eacces) = .error .eacces ∧
    (Except.error Errno.eacces : Except Errno Bool) ≠ .ok false :=
  ⟨rfl, fun h => Except.noConfusion h⟩

/-- C8 amended: a facet lookup returns the stat mode bit on success and
returns false only when the stat error is one of ENOENT, ENOTDIR, EBADF,
ELOOP (nonexistent path or broken-symlink conditions); any other OS error —
notably a permission-denied EACCES stat — propagates as an exception out of
the filter call. -/
theorem c8_amended :
    (∀ (sel : StatMode → Bool) (m : StatMode),
        pathlibTypePredicate sel (.ok m) = .ok (sel m)) ∧
    (∀ sel : StatMode → Bool,
        pathlibTypePredicate sel (.error .enoent) = .ok false ∧
        pathlibTypePredicate sel (.error .enotdir) = .ok false ∧
        pathlibTypePredicate sel (.error .ebadf) = .ok false ∧
        pathlibTypePredicate sel (.error .eloop) = .ok false) ∧
    (∀ (sel : StatMode → Bool) (e : Errno), ignoreError e = false →
        pathlibTypePredicate sel (.error e) = .error e) := by
  refine ⟨fun sel m => rfl, fun sel => ⟨rfl, rfl, rfl, rfl⟩,
    fun sel e h => ?_⟩
  simp [pathlibTypePredicate, h]

theorem c8_amended_witness :
    ignoreError .eacces = false ∧
    pathlibTypePredicate StatMode.s_fifo (.error .eacces) = .error .eacces :=
  ⟨rfl, c8_amended.2.2 StatMode.s_fifo .eacces rfl⟩

/-- C9 counterexample: for the command-line default root path `.` (the
current directory), the root label is `Path(".").name`, the empty string —
not the final path segment of `.`, which is `.` itself. -/
theorem c9_counterexample :
    (ls (str ".") emptyRootFS 10 []).1.label = [] ∧
    specFinalSegment (str ".") = str "." ∧
    ([] : Str) ≠ str "." :=
  ⟨rfl, rfl, by simp [str]⟩

/-- C9 amended: for every root path, the root label is `path.name` in the
pathlib sense — the last path component after dropping empty and single-dot
components, or the empty string when none remain — which for the
command-line default root `.` is the empty string, not `.`. -/
theorem c9_amended :
    (∀ p e md filters, (ls p e md filters).1.label = pyName p) ∧
    pyName (str ".") = [] := by
  constructor
  · intro p e md filters
    rcases e with ⟨n, f, d, cs⟩
    cases d <;> rfl
  · rfl

/-- C10: for every `max_depth ≤ 0` (the command line accepts negative
values), the build behaves exactly as with a budget of 0: it never
recurses, and every filter-admitted entry of the root directory — directory
or not — is attached as a childless leaf node. -/
theorem c10_nonpositive_depth (md : Int) (h : md ≤ 0) :
    (∀ p e filters, ls p e md filters = ls p e 0 filters) ∧
    (∀ p n fac cs filters,
        (ls p (.mk n fac false cs) md filters).1.children =
          (cs.filter (fun c => allPass filters (mkView p c))).map leafNode) := by
  constructor
  · intro p e filters
    rcases e with ⟨n, f, d, cs⟩
    cases d with
    | true => rfl
    | false =>
      simp [ls, lsChildren_nonpos p cs md filters h,
        lsChildren_nonpos p cs 0 filters (by omega)]
  · intro p n fac cs filters
    simp [ls, RTree.children, lsChildren_nonpos p cs md filters h]

theorem c10_nonpositive_depth_witness :
    (-3 : Int) ≤ 0 ∧
    ls (str "r") subDir (-3) [] = ls (str "r") subDir 0 [] ∧
    (ls (str "r") (.mk (str "r") dirFac false [entA, subDir]) (-3) []).1.children =
      ([entA, subDir].filter
          (fun c => allPass [] (mkView (str "r") c))).map leafNode :=
  ⟨by decide,
   (c10_nonpositive_depth (-3) (by decide)).1 (str "r") subDir [],
   (c10_nonpositive_depth (-3) (by decide)).2 (str "r") (str "r") dirFac
     [entA, subDir] []⟩
